import Mathlib

/-
  Shallow embedding of the pngme chunk codec (src/chunk_type.rs, src/chunk.rs).

  Bytes are modelled as `Nat` (Rust `u8` values, `< 256` where it matters);
  machine integers use explicit `% 2 ^ 32` where Rust casts would truncate.
  Fallible Rust code returning `Result` becomes `Except`; a Rust slice
  operation that can panic (`split_at` with an out-of-range midpoint) is
  modelled by an `Option`, and a decode outcome distinguishes `ok`, a typed
  error, and a panic.
-/

namespace Pngme

/-- Models `b >= b'a' && b <= b'z' || (b >= b'A' && b <= b'Z')` from
`ChunkType::is_valid` / `ChunkType::from_str` (src/chunk_type.rs). -/
def isAsciiLetter (b : Nat) : Bool :=
  (97 ≤ b && b ≤ 122) || (65 ≤ b && b ≤ 90)

/-- Models `ChunkType` (src/chunk_type.rs): `bytes: [u8; 4]`, one field per
array slot so the Rust indexing `self.bytes[i]` is total. -/
structure ChunkType where
  b0 : Nat
  b1 : Nat
  b2 : Nat
  b3 : Nat
deriving DecidableEq, Repr

/-- Models `ChunkType::bytes` returning the 4 bytes in order. -/
def ChunkType.bytes (t : ChunkType) : List Nat :=
  [t.b0, t.b1, t.b2, t.b3]

/-- Models `ChunkType::is_reserved_bit_valid`: `(self.bytes[2] & 0x20) != 0x20`. -/
def ChunkType.is_reserved_bit_valid (t : ChunkType) : Bool :=
  (t.b2 &&& 0x20) != 0x20

/-- Models `ChunkType::is_valid`: all bytes ASCII letters and the reserved bit
check passes. -/
def ChunkType.is_valid (t : ChunkType) : Bool :=
  t.bytes.all isAsciiLetter && t.is_reserved_bit_valid

/-- Models `ChunkType::is_critical`: `(self.bytes[0] & 0x20) != 0x20`. -/
def ChunkType.is_critical (t : ChunkType) : Bool :=
  (t.b0 &&& 0x20) != 0x20

/-- Models `ChunkType::is_public`: `(self.bytes[1] & 0x20) != 0x20`. -/
def ChunkType.is_public (t : ChunkType) : Bool :=
  (t.b1 &&& 0x20) != 0x20

/-- Models `ChunkType::is_safe_to_copy`: `(self.bytes[3] & 0x20) == 0x20`. -/
def ChunkType.is_safe_to_copy (t : ChunkType) : Bool :=
  (t.b3 &&& 0x20) == 0x20

/-- Models `TryFrom<[u8; 4]> for ChunkType`, which always succeeds, wrapping
the bytes verbatim.  The input list has length 4 at every call site. -/
def ChunkType.try_from_bytes (bs : List Nat) : ChunkType :=
  ⟨bs.getD 0 0, bs.getD 1 0, bs.getD 2 0, bs.getD 3 0⟩

/-- Models `chunk_type.rs`'s `ChunkError` (`ByteLengthError` / `InvalidCharacter`). -/
inductive ChunkTypeError where
  | ByteLengthError (actual : Nat)
  | InvalidCharacter
deriving DecidableEq, Repr

/-- Models `FromStr for ChunkType` (src/chunk_type.rs): the input is the
UTF-8 byte sequence of the Rust `&str` argument. -/
def ChunkType.from_str (s : List Nat) : Except ChunkTypeError ChunkType :=
  if s.length ≠ 4 then
    .error (.ByteLengthError s.length)
  else if !(s.all isAsciiLetter) then
    .error .InvalidCharacter
  else
    .ok (ChunkType.try_from_bytes s)

/-- One bit step of the reflected CRC-32 (IEEE 802.3) used by
`crc::crc32::checksum_ieee`: shift right, conditionally xor the reflected
polynomial `0xEDB88320`. -/
def crc32_step (c : Nat) : Nat :=
  if c &&& 1 = 1 then (c >>> 1) ^^^ 0xEDB88320 else c >>> 1

/-- Folds one input byte into the running CRC-32 state: xor the byte into the
low bits, then run 8 bit steps. -/
def crc32_update (c : Nat) (b : Nat) : Nat :=
  crc32_step^[8] (c ^^^ b)

/-- Models `crc::crc32::checksum_ieee`: initial value `0xFFFFFFFF`, byte-wise
update, final xor `0xFFFFFFFF`. -/
def crc32_ieee (bytes : List Nat) : Nat :=
  (bytes.foldl crc32_update 0xFFFFFFFF) ^^^ 0xFFFFFFFF

/-- Models `u32::to_be_bytes`: the four big-endian base-256 digits. -/
def u32_to_be_bytes (x : Nat) : List Nat :=
  [x / 2 ^ 24 % 256, x / 2 ^ 16 % 256, x / 2 ^ 8 % 256, x % 256]

/-- Models `u32::from_be_bytes` on a 4-byte slice (the `try_into` in the
source always receives exactly 4 bytes). -/
def u32_from_be_bytes (bs : List Nat) : Nat :=
  bs.getD 0 0 * 2 ^ 24 + bs.getD 1 0 * 2 ^ 16 + bs.getD 2 0 * 2 ^ 8 + bs.getD 3 0

/-- Models `Chunk` (src/chunk.rs): a chunk type plus the payload bytes.
Equality is the derived `PartialEq` (component-wise). -/
structure Chunk where
  chunk_type : ChunkType
  data : List Nat
deriving DecidableEq, Repr

/-- Models `Chunk::new`. -/
def Chunk.new (chunk_type : ChunkType) (data : List Nat) : Chunk :=
  ⟨chunk_type, data⟩

/-- Models `Chunk::length`: payload byte count. -/
def Chunk.length (c : Chunk) : Nat :=
  c.data.length

/-- Models `Chunk::crc`: CRC-32 (IEEE) over chunk-type bytes followed by the
payload bytes. -/
def Chunk.crc (c : Chunk) : Nat :=
  crc32_ieee (c.chunk_type.bytes ++ c.data)

/-- Models `Chunk::as_bytes`: length as big-endian `u32` (the Rust
`as u32` cast truncates mod `2 ^ 32`), then chunk-type bytes, payload, and
big-endian CRC. -/
def Chunk.as_bytes (c : Chunk) : List Nat :=
  u32_to_be_bytes (c.data.length % 2 ^ 32) ++ c.chunk_type.bytes ++ c.data
    ++ u32_to_be_bytes c.crc

/-- Models `chunk.rs`'s `ChunkError` (`InputTooSmall`, `InvalidCrc(expected,
actual)`, `InvalidChunkType`). -/
inductive ChunkError where
  | InputTooSmall
  | InvalidCrc (expected actual : Nat)
  | InvalidChunkType
deriving DecidableEq, Repr

/-- Outcome of `Chunk::try_from`: success, a returned `ChunkError`, or a Rust
panic (an out-of-range `split_at`). -/
inductive DecodeResult where
  | ok (c : Chunk)
  | err (e : ChunkError)
  | panics
deriving DecidableEq, Repr

/-- Models `slice::split_at`, which panics when the midpoint exceeds the
slice length; the panic is the `none` case. -/
def split_at (xs : List Nat) (mid : Nat) : Option (List Nat × List Nat) :=
  if mid ≤ xs.length then some (xs.take mid, xs.drop mid) else none

/-- Models `TryFrom<&[u8]> for Chunk` (src/chunk.rs): length guard, then
split off the 4-byte length, the 4-byte chunk type (validated), the
`data_length`-byte payload and the 4-byte CRC, and compare the stored CRC
with the recomputed one. -/
def Chunk.try_from (value : List Nat) : DecodeResult :=
  if value.length < 12 then .err .InputTooSmall
  else
    match split_at value 4 with
    | none => .panics
    | some (data_length_bytes, value) =>
      let data_length := u32_from_be_bytes data_length_bytes
      match split_at value 4 with
      | none => .panics
      | some (chunk_type_bytes, value) =>
        let chunk_type := ChunkType.try_from_bytes chunk_type_bytes
        if !chunk_type.is_valid then .err .InvalidChunkType
        else
          match split_at value data_length with
          | none => .panics
          | some (data, value) =>
            match split_at value 4 with
            | none => .panics
            | some (crc_bytes, _) =>
              let new : Chunk := ⟨chunk_type, data⟩
              let actual_crc := new.crc
              let expected_crc := u32_from_be_bytes crc_bytes
              if expected_crc ≠ actual_crc then
                .err (.InvalidCrc expected_crc actual_crc)
              else .ok new

/-- The 42 payload bytes used by the repository's tests. -/
def secret_message : List Nat :=
  ("This is where your secret message will be!".data.map Char.toNat)

/-- The test chunk: tag `RuSt` with the secret-message payload. -/
def secret_chunk : Chunk :=
  Chunk.new ⟨82, 117, 83, 116⟩ secret_message

/-- Spec-side accessor: the big-endian length declared by an input's first 4
bytes. -/
def declared_length (xs : List Nat) : Nat := u32_from_be_bytes (xs.take 4)

/-- Spec-side accessor: the chunk type built from input bytes 4..8. -/
def wire_tag (xs : List Nat) : ChunkType := ChunkType.try_from_bytes ((xs.drop 4).take 4)

/-- Spec-side accessor: input bytes 8..8+L, the payload slice. -/
def wire_payload (xs : List Nat) : List Nat := (xs.drop 8).take (declared_length xs)

/-- Spec-side accessor: the big-endian checksum stored at bytes 8+L..12+L. -/
def stored_crc (xs : List Nat) : Nat :=
  u32_from_be_bytes ((xs.drop (8 + declared_length xs)).take 4)

/-- Spec-side accessor: the CRC-32 recomputed over the wire tag and payload. -/
def computed_crc (xs : List Nat) : Nat := (Chunk.mk (wire_tag xs) (wire_payload xs)).crc

lemma split_at_eq_some {xs : List Nat} {n : Nat} (h : n ≤ xs.length) :
    split_at xs n = some (xs.take n, xs.drop n) := by
  simp [split_at, h]

lemma split_at_eq_none {xs : List Nat} {n : Nat} (h : ¬ n ≤ xs.length) :
    split_at xs n = none := by
  simp [split_at, h]

/-- Characterization of `Chunk.try_from` in terms of the wire accessors, for
every input: length guard, tag validity, the panic region (declared length
overruns the input), and the checksum comparison. -/
lemma try_from_eq (xs : List Nat) :
    Chunk.try_from xs =
      if xs.length < 12 then .err .InputTooSmall
      else if !(wire_tag xs).is_valid then .err .InvalidChunkType
      else if ¬ (declared_length xs + 12 ≤ xs.length) then .panics
      else if stored_crc xs ≠ computed_crc xs then
        .err (.InvalidCrc (stored_crc xs) (computed_crc xs))
      else .ok ⟨wire_tag xs, wire_payload xs⟩ := by
  by_cases h12 : xs.length < 12
  · simp [Chunk.try_from, h12]
  · have h4a : (4 : Nat) ≤ xs.length := by omega
    have h4b : (4 : Nat) ≤ (xs.drop 4).length := by
      simp [List.length_drop]; omega
    rw [if_neg h12]
    unfold Chunk.try_from
    rw [if_neg h12]
    simp only [split_at_eq_some h4a, split_at_eq_some h4b, List.drop_drop,
      show (4 : Nat) + 4 = 8 from rfl]
    simp only [wire_tag, declared_length, stored_crc, computed_crc, wire_payload]
    by_cases hv : (ChunkType.try_from_bytes ((xs.drop 4).take 4)).is_valid = true
    · rw [if_neg (by simp [hv]), if_neg (by simp [hv])]
      by_cases hb : u32_from_be_bytes (xs.take 4) + 12 ≤ xs.length
      · have hL : u32_from_be_bytes (xs.take 4) ≤ (xs.drop 8).length := by
          simp only [List.length_drop]; omega
        rw [split_at_eq_some hL]
        simp only [List.drop_drop]
        have hc : 4 ≤ (xs.drop (8 + u32_from_be_bytes (xs.take 4))).length := by
          simp only [List.length_drop]; omega
        rw [split_at_eq_some hc, if_neg (by omega)]
      · rw [if_pos (by omega)]
        by_cases hL : u32_from_be_bytes (xs.take 4) ≤ (xs.drop 8).length
        · rw [split_at_eq_some hL]
          simp only [List.drop_drop]
          have hc : ¬ 4 ≤ (xs.drop (8 + u32_from_be_bytes (xs.take 4))).length := by
            simp only [List.length_drop]
            simp only [List.length_drop] at hL
            omega
          rw [split_at_eq_none hc]
        · rw [split_at_eq_none hL]
    · rw [if_pos (by simp [hv]), if_pos (by simp [hv])]

end Pngme
namespace Pngme

lemma u32_to_be_bytes_length (x : Nat) : (u32_to_be_bytes x).length = 4 := rfl

lemma u32_from_be_to_be {x : Nat} (h : x < 2 ^ 32) :
    u32_from_be_bytes (u32_to_be_bytes x) = x := by
  simp only [u32_to_be_bytes, u32_from_be_bytes, List.getD_cons_succ, List.getD_cons_zero]
  omega

lemma crc32_step_lt {c : Nat} (h : c < 2 ^ 32) : crc32_step c < 2 ^ 32 := by
  unfold crc32_step
  have h1 : c >>> 1 < 2 ^ 32 := by
    rw [Nat.shiftRight_eq_div_pow]
    omega
  split
  · exact Nat.xor_lt_two_pow h1 (by norm_num)
  · exact h1

lemma crc32_step_iter_lt : ∀ (n : Nat) {c : Nat}, c < 2 ^ 32 → crc32_step^[n] c < 2 ^ 32
  | 0, _, h => h
  | n + 1, c, h => by
    rw [Function.iterate_succ_apply]
    exact crc32_step_iter_lt n (crc32_step_lt h)

lemma crc32_update_lt {c b : Nat} (hc : c < 2 ^ 32) (hb : b < 2 ^ 32) :
    crc32_update c b < 2 ^ 32 :=
  crc32_step_iter_lt 8 (Nat.xor_lt_two_pow hc hb)

lemma crc32_foldl_lt : ∀ (bs : List Nat) {c : Nat}, c < 2 ^ 32 → (∀ b ∈ bs, b < 256) →
    bs.foldl crc32_update c < 2 ^ 32
  | [], _, hc, _ => hc
  | b :: bs, c, hc, hb => by
    rw [List.foldl_cons]
    exact crc32_foldl_lt bs
      (crc32_update_lt hc (lt_trans (hb b (by simp)) (by norm_num)))
      (fun x hx => hb x (by simp [hx]))

lemma crc32_ieee_lt {bs : List Nat} (h : ∀ b ∈ bs, b < 256) : crc32_ieee bs < 2 ^ 32 :=
  Nat.xor_lt_two_pow (crc32_foldl_lt bs (by norm_num) h) (by norm_num)

lemma chunk_crc_lt {c : Chunk} (ht : ∀ b ∈ c.chunk_type.bytes, b < 256)
    (hd : ∀ b ∈ c.data, b < 256) : c.crc < 2 ^ 32 := by
  apply crc32_ieee_lt
  intro b hb
  rcases List.mem_append.mp hb with h | h
  · exact ht b h
  · exact hd b h

end Pngme
namespace Pngme

lemma chunk_type_eta (t : ChunkType) : ChunkType.try_from_bytes t.bytes = t := by
  cases t; rfl

lemma chunk_type_bytes_length (t : ChunkType) : t.bytes.length = 4 := rfl

lemma valid_tag_bytes_lt {t : ChunkType} (h : t.is_valid = true) :
    ∀ b ∈ t.bytes, b < 256 := by
  unfold ChunkType.is_valid at h
  rw [Bool.and_eq_true] at h
  have h1 := h.1
  simp only [ChunkType.bytes, List.all_cons, List.all_nil, Bool.and_eq_true,
    isAsciiLetter, Bool.or_eq_true, decide_eq_true_eq] at h1
  simp only [ChunkType.bytes, List.mem_cons, List.not_mem_nil, or_false]
  rintro b (rfl | rfl | rfl | rfl) <;> omega

lemma as_bytes_length (c : Chunk) : c.as_bytes.length = 12 + c.data.length := by
  simp [Chunk.as_bytes, u32_to_be_bytes, ChunkType.bytes]
  omega

lemma declared_length_as_bytes (c : Chunk) (h : c.data.length < 2 ^ 32) :
    declared_length c.as_bytes = c.data.length := by
  unfold declared_length Chunk.as_bytes
  rw [List.append_assoc, List.append_assoc, List.take_left' (u32_to_be_bytes_length _),
    u32_from_be_to_be (Nat.mod_lt _ (by norm_num)), Nat.mod_eq_of_lt h]

lemma wire_tag_as_bytes (c : Chunk) : wire_tag c.as_bytes = c.chunk_type := by
  unfold wire_tag Chunk.as_bytes
  rw [List.append_assoc, List.append_assoc, List.drop_left' (u32_to_be_bytes_length _),
    List.take_left' (chunk_type_bytes_length _), chunk_type_eta]

lemma drop8_as_bytes (c : Chunk) : c.as_bytes.drop 8 = c.data ++ u32_to_be_bytes c.crc := by
  have h : c.as_bytes.drop 8 = (c.as_bytes.drop 4).drop 4 := by
    rw [List.drop_drop]
  rw [h]
  unfold Chunk.as_bytes
  rw [List.append_assoc, List.append_assoc, List.drop_left' (u32_to_be_bytes_length _),
    List.drop_left' (chunk_type_bytes_length _)]

lemma wire_payload_as_bytes (c : Chunk) (h : c.data.length < 2 ^ 32) :
    wire_payload c.as_bytes = c.data := by
  unfold wire_payload
  rw [declared_length_as_bytes c h, drop8_as_bytes, List.take_left' rfl]

lemma stored_crc_as_bytes (c : Chunk) (h : c.data.length < 2 ^ 32)
    (hcrc : c.crc < 2 ^ 32) : stored_crc c.as_bytes = c.crc := by
  unfold stored_crc
  rw [declared_length_as_bytes c h]
  have h1 : c.as_bytes.drop (8 + c.data.length) = (c.as_bytes.drop 8).drop c.data.length :=
    (List.drop_drop _ _ _).symm
  rw [h1, drop8_as_bytes, List.drop_left' rfl,
    List.take_of_length_le (by rw [u32_to_be_bytes_length])]
  exact u32_from_be_to_be hcrc

lemma computed_crc_as_bytes (c : Chunk) (h : c.data.length < 2 ^ 32) :
    computed_crc c.as_bytes = c.crc := by
  unfold computed_crc
  rw [wire_tag_as_bytes, wire_payload_as_bytes c h]

lemma try_from_as_bytes_ok (c : Chunk) (hv : c.chunk_type.is_valid = true)
    (hlen : c.data.length < 2 ^ 32) (hd : ∀ b ∈ c.data, b < 256) :
    Chunk.try_from c.as_bytes = .ok c := by
  have ht : ∀ b ∈ c.chunk_type.bytes, b < 256 := valid_tag_bytes_lt hv
  have hcrc : c.crc < 2 ^ 32 := chunk_crc_lt ht hd
  rw [try_from_eq]
  rw [if_neg (by rw [as_bytes_length]; omega)]
  rw [if_neg (by rw [wire_tag_as_bytes, hv]; simp)]
  rw [if_neg (by rw [declared_length_as_bytes c hlen, as_bytes_length]; omega)]
  rw [if_neg (by rw [stored_crc_as_bytes c hlen hcrc, computed_crc_as_bytes c hlen]; simp)]
  rw [wire_tag_as_bytes, wire_payload_as_bytes c hlen]

end Pngme
namespace Pngme

lemma and_32_cases (b : Nat) : b &&& 32 = 0 ∨ b &&& 32 = 32 := by
  have h := Nat.and_two_pow b 5
  norm_num at h
  cases hb : b.testBit 5 <;> rw [hb] at h <;> simp at h <;> omega

lemma try_from_bytes_bytes (bs : List Nat) (h : bs.length = 4) :
    (ChunkType.try_from_bytes bs).bytes = bs := by
  rcases bs with _ | ⟨a, _ | ⟨b, _ | ⟨c, _ | ⟨d, _ | ⟨e, tl⟩⟩⟩⟩⟩ <;>
    simp_all [ChunkType.try_from_bytes, ChunkType.bytes]

lemma try_from_ok_inv {xs : List Nat} {c : Chunk} (h : Chunk.try_from xs = .ok c) :
    ¬ xs.length < 12 ∧ (wire_tag xs).is_valid = true ∧
      declared_length xs + 12 ≤ xs.length ∧
      stored_crc xs = computed_crc xs ∧ c = ⟨wire_tag xs, wire_payload xs⟩ := by
  rw [try_from_eq] at h
  by_cases h12 : xs.length < 12
  · rw [if_pos h12] at h; simp at h
  rw [if_neg h12] at h
  by_cases hv : (wire_tag xs).is_valid = true
  case neg => rw [if_pos (by simp [hv])] at h; simp at h
  rw [if_neg (by simp [hv])] at h
  by_cases hb : declared_length xs + 12 ≤ xs.length
  case neg => rw [if_pos hb] at h; simp at h
  rw [if_neg (not_not_intro hb)] at h
  by_cases hcrc : stored_crc xs = computed_crc xs
  case neg => rw [if_pos hcrc] at h; simp at h
  rw [if_neg (not_not_intro hcrc)] at h
  simp only [DecodeResult.ok.injEq] at h
  exact ⟨h12, hv, hb, hcrc, h.symm⟩

end Pngme
namespace Pngme

lemma length_drop_eq (xs : List Nat) (n : Nat) : (xs.drop n).length = xs.length - n :=
  List.length_drop n xs

lemma declared_length_append (xs ys : List Nat) (h : 4 ≤ xs.length) :
    declared_length (xs ++ ys) = declared_length xs := by
  unfold declared_length
  rw [List.take_append_of_le_length h]

lemma wire_tag_append (xs ys : List Nat) (h : 8 ≤ xs.length) :
    wire_tag (xs ++ ys) = wire_tag xs := by
  unfold wire_tag
  rw [List.drop_append_of_le_length (by omega),
    List.take_append_of_le_length (by rw [length_drop_eq]; omega)]

lemma wire_payload_append (xs ys : List Nat)
    (h : declared_length xs + 12 ≤ xs.length) :
    wire_payload (xs ++ ys) = wire_payload xs := by
  unfold wire_payload
  rw [declared_length_append xs ys (by omega),
    List.drop_append_of_le_length (by omega),
    List.take_append_of_le_length (by rw [length_drop_eq]; omega)]

lemma stored_crc_append (xs ys : List Nat)
    (h : declared_length xs + 12 ≤ xs.length) :
    stored_crc (xs ++ ys) = stored_crc xs := by
  unfold stored_crc
  rw [declared_length_append xs ys (by omega),
    List.drop_append_of_le_length (by omega),
    List.take_append_of_le_length (by rw [length_drop_eq]; omega)]

/-- C9: whenever decode succeeds on an input, appending arbitrary trailing
bytes leaves the result unchanged: decode depends only on the first
`12 + L` bytes. -/
theorem c9_trailing_bytes_ignored (xs ys : List Nat) (c : Chunk)
    (h : Chunk.try_from xs = .ok c) :
    Chunk.try_from (xs ++ ys) = .ok c := by
  obtain ⟨h12, hv, hb, hcrc, hc⟩ := try_from_ok_inv h
  have htag := wire_tag_append xs ys (by omega)
  have hpay := wire_payload_append xs ys hb
  have hstored := stored_crc_append xs ys hb
  have hdl := declared_length_append xs ys (by omega)
  have hcomp : computed_crc (xs ++ ys) = computed_crc xs := by
    unfold computed_crc
    rw [htag, hpay]
  rw [try_from_eq]
  rw [if_neg (by rw [List.length_append]; omega)]
  rw [if_neg (by rw [htag, hv]; simp)]
  rw [if_neg (by rw [hdl, List.length_append]; push_neg; omega)]
  rw [if_neg (by rw [hstored, hcomp]; simpa using hcrc)]
  rw [htag, hpay, hc]

end Pngme
namespace Pngme

/-- C9 witness: a concrete successful decode is unchanged by trailing bytes. -/
theorem c9_trailing_bytes_ignored_witness :
    Chunk.try_from ([0, 0, 0, 0, 82, 117, 83, 116, 212, 132, 9, 60] ++ [9, 9, 9])
      = .ok ⟨⟨82, 117, 83, 116⟩, []⟩ :=
  c9_trailing_bytes_ignored _ [9, 9, 9] _ (by decide)

/-- C10: whenever decode succeeds, the chunk's length is the declared
big-endian length `L` of the first 4 input bytes, its tag bytes are input
bytes 4..8, and its payload is input bytes 8..8+L verbatim. -/
theorem c10_decode_slices (xs : List Nat) (c : Chunk)
    (h : Chunk.try_from xs = .ok c) :
    c.length = declared_length xs ∧
      c.chunk_type.bytes = (xs.drop 4).take 4 ∧
      c.data = (xs.drop 8).take (declared_length xs) := by
  obtain ⟨h12, hv, hb, hcrc, hc⟩ := try_from_ok_inv h
  subst hc
  refine ⟨?_, ?_, rfl⟩
  · show (wire_payload xs).length = declared_length xs
    unfold wire_payload
    rw [List.length_take, length_drop_eq]
    omega
  · show (wire_tag xs).bytes = (xs.drop 4).take 4
    unfold wire_tag
    rw [try_from_bytes_bytes]
    rw [List.length_take, length_drop_eq]
    omega

/-- C10 witness: the concrete empty-payload `RuSt` wire record. -/
theorem c10_decode_slices_witness :
    (⟨⟨82, 117, 83, 116⟩, []⟩ : Chunk).length
        = declared_length [0, 0, 0, 0, 82, 117, 83, 116, 212, 132, 9, 60] ∧
      (⟨⟨82, 117, 83, 116⟩, []⟩ : Chunk).chunk_type.bytes
        = (([0, 0, 0, 0, 82, 117, 83, 116, 212, 132, 9, 60] : List Nat).drop 4).take 4 ∧
      (⟨⟨82, 117, 83, 116⟩, []⟩ : Chunk).data
        = (([0, 0, 0, 0, 82, 117, 83, 116, 212, 132, 9, 60] : List Nat).drop 8).take
            (declared_length [0, 0, 0, 0, 82, 117, 83, 116, 212, 132, 9, 60]) :=
  c10_decode_slices _ _ (by decide)

end Pngme
namespace Pngme

/-- C1: the spec requires a `TruncatedPayload` error (never a panic) when the
declared length overruns the input, but at the 12-byte input below — declared
length 1, valid tag `RuSt`, only 0 payload + 4 checksum bytes available past
the header, so 12 + L = 13 exceeds the input length — `Chunk::try_from`
reaches `split_at` with an out-of-range midpoint and panics; no
`TruncatedPayload`-style variant exists in `ChunkError` at all. -/
theorem c1_truncated_payload_panics :
    Chunk.try_from [0, 0, 0, 1, 82, 117, 83, 116, 0, 0, 0, 0] = .panics := by
  decide

/-- C2: for every valid tag and every byte payload (shorter than `2 ^ 32`,
the format's length-field capacity), decoding the encoding of
`Chunk::new(tag, payload)` succeeds with a chunk equal to
`Chunk::new(tag, payload)`. -/
theorem c2_roundtrip_new (t : ChunkType) (payload : List Nat)
    (hv : t.is_valid = true) (hb : ∀ b ∈ payload, b < 256)
    (hlen : payload.length < 2 ^ 32) :
    Chunk.try_from (Chunk.new t payload).as_bytes = .ok (Chunk.new t payload) :=
  try_from_as_bytes_ok (Chunk.new t payload) hv hlen hb

/-- C2 witness: the round trip at tag `RuSt` with payload `[1, 2, 3]`. -/
theorem c2_roundtrip_new_witness :
    Chunk.try_from (Chunk.new ⟨82, 117, 83, 116⟩ [1, 2, 3]).as_bytes
      = .ok (Chunk.new ⟨82, 117, 83, 116⟩ [1, 2, 3]) :=
  c2_roundtrip_new ⟨82, 117, 83, 116⟩ [1, 2, 3] (by decide) (by decide) (by decide)

/-- C3 counterexample: for the chunk with tag `Rust` (reserved bit set, so the
validity query fails) and empty payload, decode of encode returns
`InvalidChunkType` rather than the chunk, so the unconditional round-trip
claim is false. -/
theorem c3_roundtrip_unconditional_counterexample :
    Chunk.try_from (Chunk.new ⟨82, 117, 115, 116⟩ []).as_bytes
        = .err .InvalidChunkType ∧
      Chunk.try_from (Chunk.new ⟨82, 117, 115, 116⟩ []).as_bytes
        ≠ .ok (Chunk.new ⟨82, 117, 115, 116⟩ []) := by
  exact ⟨by decide, by decide⟩

/-- C3 amended: `decode(encode(c)) = c` for every chunk whose tag passes the
validity query (payload a byte sequence shorter than `2 ^ 32`). -/
theorem c3_roundtrip_amended (c : Chunk) (hv : c.chunk_type.is_valid = true)
    (hb : ∀ b ∈ c.data, b < 256) (hlen : c.data.length < 2 ^ 32) :
    Chunk.try_from c.as_bytes = .ok c :=
  try_from_as_bytes_ok c hv hlen hb

/-- C3 witness: the amended round trip at the chunk with tag `TEXt` and
payload `[7]`. -/
theorem c3_roundtrip_amended_witness :
    Chunk.try_from (⟨⟨84, 69, 88, 116⟩, [7]⟩ : Chunk).as_bytes
      = .ok (⟨⟨84, 69, 88, 116⟩, [7]⟩ : Chunk) :=
  c3_roundtrip_amended ⟨⟨84, 69, 88, 116⟩, [7]⟩ (by decide) (by decide) (by decide)

end Pngme
namespace Pngme

/-- C4 counterexample: the UTF-8 payload of the test string is 42 bytes, not
44, and the encoding is 54 bytes, not 56; the checksum part of the scenario
is right. -/
theorem c4_scenario_d_counterexample :
    secret_chunk.length ≠ 44 ∧ secret_chunk.as_bytes.length ≠ 56 := by
  exact ⟨by decide, by decide⟩

set_option maxRecDepth 100000 in
/-- C4 amended: the payload is 42 bytes, the checksum is `2882656334`, the
encoding is `12 + 42 = 54` bytes, and decoding it returns the chunk with
exactly the original payload bytes. -/
theorem c4_scenario_d :
    secret_chunk.length = 42 ∧
      secret_chunk.crc = 2882656334 ∧
      secret_chunk.as_bytes.length = 12 + 42 ∧
      Chunk.try_from secret_chunk.as_bytes = .ok secret_chunk ∧
      secret_chunk.data = secret_message := by
  exact ⟨by decide, by decide, by decide, by decide, rfl⟩

/-- C5: every input shorter than 12 bytes fails with exactly `InputTooSmall`
(the `TooShort` error), and for every valid tag the empty-payload chunk
encodes to exactly 12 bytes. -/
theorem c5_too_short_and_empty_payload :
    (∀ xs : List Nat, xs.length < 12 → Chunk.try_from xs = .err .InputTooSmall) ∧
      (∀ t : ChunkType, t.is_valid = true → (Chunk.new t []).as_bytes.length = 12) := by
  constructor
  · intro xs h
    unfold Chunk.try_from
    rw [if_pos h]
  · intro t _
    rw [as_bytes_length]
    rfl

/-- C5 witness: the 3-byte input and the tag `RuSt`. -/
theorem c5_too_short_and_empty_payload_witness :
    Chunk.try_from [0, 1, 2] = .err .InputTooSmall ∧
      (Chunk.new ⟨82, 117, 83, 116⟩ []).as_bytes.length = 12 :=
  ⟨c5_too_short_and_empty_payload.1 [0, 1, 2] (by decide),
   c5_too_short_and_empty_payload.2 ⟨82, 117, 83, 116⟩ (by decide)⟩

end Pngme
namespace Pngme

/-- C6 counterexample: on the wire record with valid tag `RuSt`, empty
payload and stored checksum 0, decode fails with `InvalidCrc(0, 3565422908)`:
the first argument is the value stored on the wire and the second the
checksum computed over tag ‖ payload — the opposite of the claimed
`(computed, stored)` order. -/
theorem c6_checksum_order_counterexample :
    Chunk.try_from [0, 0, 0, 0, 82, 117, 83, 116, 0, 0, 0, 0]
        = .err (.InvalidCrc 0 3565422908) ∧
      crc32_ieee [82, 117, 83, 116] = 3565422908 ∧
      Chunk.try_from [0, 0, 0, 0, 82, 117, 83, 116, 0, 0, 0, 0]
        ≠ .err (.InvalidCrc 3565422908 0) := by
  exact ⟨by decide, by decide, by decide⟩

/-- C6 amended: for every input of length at least `12 + L` whose wire tag is
valid, decode succeeds exactly when the stored checksum equals the CRC-32
computed over tag ‖ payload, and on a mismatch it returns
`InvalidCrc(stored, computed)` — first the wire value, then the recomputed
one; it neither panics nor silently succeeds. -/
theorem c6_checksum_mismatch (xs : List Nat)
    (hlen : declared_length xs + 12 ≤ xs.length)
    (hv : (wire_tag xs).is_valid = true) :
    (stored_crc xs = computed_crc xs →
        Chunk.try_from xs = .ok ⟨wire_tag xs, wire_payload xs⟩) ∧
      (stored_crc xs ≠ computed_crc xs →
        Chunk.try_from xs = .err (.InvalidCrc (stored_crc xs) (computed_crc xs))) := by
  rw [try_from_eq, if_neg (by omega), if_neg (by simp [hv]),
    if_neg (not_not_intro hlen)]
  constructor
  · intro h
    rw [if_neg (not_not_intro h)]
  · intro h
    rw [if_pos h]

/-- C6 witness: the counterexample wire satisfies the hypotheses and shows the
mismatch branch. -/
theorem c6_checksum_mismatch_witness :
    Chunk.try_from [0, 0, 0, 0, 82, 117, 83, 116, 0, 0, 0, 0]
      = .err (.InvalidCrc (stored_crc [0, 0, 0, 0, 82, 117, 83, 116, 0, 0, 0, 0])
          (computed_crc [0, 0, 0, 0, 82, 117, 83, 116, 0, 0, 0, 0])) :=
  (c6_checksum_mismatch [0, 0, 0, 0, 82, 117, 83, 116, 0, 0, 0, 0]
    (by decide) (by decide)).2 (by decide)

end Pngme
namespace Pngme

/-- C7: the validity query holds exactly when each of the 4 bytes is an ASCII
letter (`A`-`Z` or `a`-`z`) and bit 5 (`0x20`) of byte 2 is 0; as a function
of the tag value it is deterministic, so repeated calls agree. -/
theorem c7_is_valid_iff (t : ChunkType) :
    t.is_valid = true ↔
      ((65 ≤ t.b0 ∧ t.b0 ≤ 90) ∨ (97 ≤ t.b0 ∧ t.b0 ≤ 122)) ∧
      ((65 ≤ t.b1 ∧ t.b1 ≤ 90) ∨ (97 ≤ t.b1 ∧ t.b1 ≤ 122)) ∧
      ((65 ≤ t.b2 ∧ t.b2 ≤ 90) ∨ (97 ≤ t.b2 ∧ t.b2 ≤ 122)) ∧
      ((65 ≤ t.b3 ∧ t.b3 ≤ 90) ∨ (97 ≤ t.b3 ∧ t.b3 ≤ 122)) ∧
      t.b2 &&& 0x20 = 0 := by
  unfold ChunkType.is_valid ChunkType.is_reserved_bit_valid
  simp only [ChunkType.bytes, List.all_cons, List.all_nil, Bool.and_true,
    Bool.and_eq_true, isAsciiLetter, Bool.or_eq_true, decide_eq_true_eq,
    bne_iff_ne, ne_eq]
  rcases and_32_cases t.b2 with h | h
  · rw [h]
    simp only [show ¬ (0 = 32) from by omega, not_false_eq_true, and_true, eq_self_iff_true]
    tauto
  · rw [h]
    simp

end Pngme
namespace Pngme

/-- C8: construction from text fails with `ByteLengthError` exactly when the
text is not 4 bytes, fails with `InvalidCharacter` exactly when it is 4 bytes
but some byte is not an ASCII letter, succeeds otherwise with the bytes
wrapped verbatim, and does not check the reserved bit (the tag `Rust`, whose
reserved bit is set, is accepted). -/
theorem c8_from_str_characterization :
    (∀ s : List Nat,
        (ChunkType.from_str s = .error (.ByteLengthError s.length) ↔ s.length ≠ 4) ∧
        (ChunkType.from_str s = .error .InvalidCharacter ↔
          s.length = 4 ∧ ∃ b ∈ s, ¬ ((65 ≤ b ∧ b ≤ 90) ∨ (97 ≤ b ∧ b ≤ 122))) ∧
        (s.length = 4 → s.all isAsciiLetter = true →
          ChunkType.from_str s = .ok (ChunkType.try_from_bytes s))) ∧
      ChunkType.from_str [82, 117, 115, 116] = .ok ⟨82, 117, 115, 116⟩ := by
  constructor
  · intro s
    by_cases hl : s.length = 4
    · have hl' : ¬ s.length ≠ 4 := not_not_intro hl
      by_cases ha : s.all isAsciiLetter = true
      · have : ChunkType.from_str s = .ok (ChunkType.try_from_bytes s) := by
          unfold ChunkType.from_str
          rw [if_neg hl', if_neg (by simp [ha])]
        refine ⟨?_, ?_, fun _ _ => this⟩
        · rw [this]; simp [hl]
        · rw [this]
          simp only [List.all_eq_true, isAsciiLetter, Bool.or_eq_true,
            Bool.and_eq_true, decide_eq_true_eq] at ha
          constructor
          · intro h; exact absurd h (by simp)
          · rintro ⟨-, b, hb, hcontra⟩
            exact (hcontra (ha b hb).symm).elim
      · have : ChunkType.from_str s = .error .InvalidCharacter := by
          unfold ChunkType.from_str
          rw [if_neg hl', if_pos (by simp [ha])]
        refine ⟨by rw [this]; simp [hl], ?_, fun _ h => absurd h ha⟩
        rw [this]
        simp only [true_iff, hl, true_and]
        simp only [List.all_eq_true, isAsciiLetter, Bool.or_eq_true,
          Bool.and_eq_true, decide_eq_true_eq, not_forall] at ha
        obtain ⟨b, hb, hcontra⟩ := ha
        exact ⟨b, hb, by tauto⟩
    · have : ChunkType.from_str s = .error (.ByteLengthError s.length) := by
        unfold ChunkType.from_str
        rw [if_pos hl]
      refine ⟨by rw [this]; simp [hl], ?_, fun h => absurd h hl⟩
      rw [this]
      constructor
      · intro h; exact absurd h (by simp)
      · rintro ⟨h, -⟩; exact absurd h hl
  · rfl

/-- C8 witness: the 4-letter text `RuSt` satisfies both hypotheses of the
success case and is wrapped verbatim. -/
theorem c8_from_str_characterization_witness :
    ChunkType.from_str [82, 117, 83, 116]
      = .ok (ChunkType.try_from_bytes [82, 117, 83, 116]) :=
  (c8_from_str_characterization.1 [82, 117, 83, 116]).2.2 (by decide) (by decide)

end Pngme
